import Mathlib

/-!
Shallow embedding of the task-store core of the "My Tasks" app
(`src/app/(tabs)/index.tsx`).

The component state (`AppState`) carries the pieces of React state the
handlers read and write: the add-input string `task`, the task list
`tasks`, and the edit-modal state (`editInfo`, `editText`,
`editModalVisible`).  Each handler is translated directly from its
TypeScript source.  Asynchronous gateway calls (notification
scheduling) are modelled by passing the gateway's response in as an
argument: `Except.ok handle` for a fulfilled schedule request and
`Except.error ()` for a rejected one.  A handler that awaits a
rejected promise propagates the rejection, which we model by returning
`Except.error ()`; the React state it would have set is then left
unchanged.  Side-effect requests issued to the notification gateway
are returned as an `Effect` list.  `Date.now()` is modelled by a
`now : Nat` argument and `.toString()` by `Nat.repr`.
-/

namespace TaskApp

/-- The three priority levels `'high' | 'medium' | 'low'`. -/
inductive Priority where
  | high
  | medium
  | low
  deriving DecidableEq, Repr

/-- A task record:
`{ id: string; text: string; completed: boolean; priority; notificationId?: string }`. -/
structure Task where
  id : String
  text : String
  completed : Bool
  priority : Priority
  notificationId : Option String
  deriving DecidableEq, Repr

/-- The React component state the task-store handlers touch. -/
structure AppState where
  task : String
  tasks : List Task
  editInfo : Option (String × String)
  editText : String
  editModalVisible : Bool
  deriving DecidableEq, Repr

/-- A request issued to the notification gateway. -/
inductive Effect where
  | scheduleRequest (text : String)
  | cancelRequest (handle : String)
  deriving DecidableEq, Repr

/-- The whitespace characters stripped by JavaScript
`String.prototype.trim` that are expressible in these claims
(ASCII space, tab, newline, carriage return, vertical tab, form feed). -/
def isJsWhitespaceChar (c : Char) : Bool :=
  c == ' ' || c == '\t' || c == '\n' || c == '\r' || c == '\x0b' || c == '\x0c'

/-- JavaScript `s.trim()`: strip leading and trailing whitespace. -/
def jsTrim (s : String) : String :=
  String.mk (((s.data.dropWhile isJsWhitespaceChar).reverse.dropWhile
    isJsWhitespaceChar).reverse)

/-- The task object built inside `handleAddTask`:
`{ id: Date.now().toString(), text: task, completed: false, priority: 'medium', notificationId }`. -/
def addedTask (s : AppState) (now : Nat) (nid : String) : Task :=
  { id := Nat.repr now
    text := s.task
    completed := false
    priority := Priority.medium
    notificationId := some nid }

/-- `handleAddTask`: if `task.trim()` is truthy and the edit modal is not
visible, await `scheduleNotification(task)` and append the new task,
then clear the input.  `sched` is the gateway's response; a rejected
schedule call makes the whole async handler reject before `setTasks`
runs. -/
def handleAddTask (s : AppState) (now : Nat) (sched : Except Unit String) :
    Except Unit AppState × List Effect :=
  if jsTrim s.task ≠ "" then
    if s.editModalVisible = false then
      match sched with
      | Except.error e => (Except.error e, [Effect.scheduleRequest s.task])
      | Except.ok nid =>
          (Except.ok { s with
              tasks := s.tasks ++ [addedTask s now nid]
              task := "" },
            [Effect.scheduleRequest s.task])
    else (Except.ok s, [])
  else (Except.ok s, [])

/-- The per-task update applied by `handleToggleComplete`'s `tasks.map`:
`t.id === id ? { ...t, completed: !t.completed, notificationId } : t`. -/
def toggleApply (i : String) (nid : Option String) (u : Task) : Task :=
  if u.id == i then { u with completed := !u.completed, notificationId := nid } else u

/-- `handleToggleComplete`: branch on `taskToToggle?.completed`; going
incomplete first awaits a fresh schedule request, going complete
requests cancellation of the stored handle and clears it. -/
def handleToggleComplete (s : AppState) (i : String) (sched : Except Unit String) :
    Except Unit AppState × List Effect :=
  let taskToToggle := s.tasks.find? (fun t => t.id == i)
  if (taskToToggle.map Task.completed).getD false then
    match taskToToggle, sched with
    | some t, Except.error e => (Except.error e, [Effect.scheduleRequest t.text])
    | some t, Except.ok nid =>
        (Except.ok { s with tasks := s.tasks.map (toggleApply i (some nid)) },
          [Effect.scheduleRequest t.text])
    | none, _ => (Except.ok s, [])
  else
    (Except.ok { s with tasks := s.tasks.map (toggleApply i none) },
      match taskToToggle.bind Task.notificationId with
      | some h => [Effect.cancelRequest h]
      | none => [])

/-- The per-task update applied by `handleSaveEdit`'s `tasks.map`:
`t.id === editInfo.id ? { ...t, text: editText } : t`. -/
def editApply (i : String) (newText : String) (t : Task) : Task :=
  if t.id == i then { t with text := newText } else t

/-- `handleSaveEdit`: if `editInfo && editText.trim()`, replace the text
of the task with the edited id and close the modal; otherwise do
nothing. -/
def handleSaveEdit (s : AppState) : AppState :=
  match s.editInfo with
  | some ei =>
      if jsTrim s.editText ≠ "" then
        { s with
            tasks := s.tasks.map (editApply ei.1 s.editText)
            editInfo := none
            editText := ""
            editModalVisible := false }
      else s
  | none => s

/-- `handleEditTask`: open the edit modal for a task. -/
def handleEditTask (s : AppState) (i : String) (text : String) : AppState :=
  { s with editInfo := some (i, text), editText := text, editModalVisible := true }

/-- `handleCancelEdit`: close the edit modal, discarding the draft. -/
def handleCancelEdit (s : AppState) : AppState :=
  { s with editInfo := none, editText := "", editModalVisible := false }

/-- `handleDeleteTask`: request cancellation of the task's stored
notification handle (if any) and filter the task out of the list. -/
def handleDeleteTask (s : AppState) (i : String) : AppState × List Effect :=
  let taskToDelete := s.tasks.find? (fun t => t.id == i)
  ({ s with tasks := s.tasks.filter (fun t => !(t.id == i)) },
    match taskToDelete.bind Task.notificationId with
    | some h => [Effect.cancelRequest h]
    | none => [])

/-- `handlePriorityChange`: replace the priority of the task with the
given id. -/
def handlePriorityChange (s : AppState) (i : String) (p : Priority) : AppState :=
  { s with tasks := s.tasks.map (fun t => if t.id == i then { t with priority := p } else t) }

/-- `loadTasks`: read the stored snapshot; `stored` models
`AsyncStorage.getItem('tasks')` (`none` = null) and `parse` models
`JSON.parse` (`Except.error` = throw, caught by the surrounding
try/catch, leaving the initial `[]` in place).  The `≠ ""` test models
JavaScript truthiness of `if (savedTasks)`. -/
def loadTasks (stored : Option String) (parse : String → Except Unit (List Task)) :
    List Task :=
  match stored with
  | none => []
  | some savedTasks =>
      if savedTasks ≠ "" then
        match parse savedTasks with
        | Except.ok ts => ts
        | Except.error _ => []
      else []

/-- One user-visible operation on the component, with the gateway
responses and clock readings it consumes. -/
inductive Op where
  | setTask (t : String)
  | add (now : Nat) (sched : Except Unit String)
  | openEdit (i : String) (text : String)
  | setEditText (t : String)
  | saveEdit
  | cancelEdit
  | toggle (i : String) (sched : Except Unit String)
  | del (i : String)
  | setPriority (i : String) (p : Priority)

/-- Apply one operation to the state.  A handler whose awaited gateway
call rejected never reaches its `setTasks`, so the state is unchanged. -/
def step (s : AppState) : Op → AppState
  | Op.setTask t => { s with task := t }
  | Op.add now sched =>
      match (handleAddTask s now sched).1 with
      | Except.ok s2 => s2
      | Except.error _ => s
  | Op.openEdit i text => handleEditTask s i text
  | Op.setEditText t => { s with editText := t }
  | Op.saveEdit => handleSaveEdit s
  | Op.cancelEdit => handleCancelEdit s
  | Op.toggle i sched =>
      match (handleToggleComplete s i sched).1 with
      | Except.ok s2 => s2
      | Except.error _ => s
  | Op.del i => (handleDeleteTask s i).1
  | Op.setPriority i p => handlePriorityChange s i p

/-- Run a sequence of operations. -/
def run (s : AppState) (ops : List Op) : AppState := ops.foldl step s

/-- The state at component mount: `useState('')`, `useState([])`,
`useState(null)`, `useState(false)`, `useState('')`. -/
def initialState : AppState :=
  { task := "", tasks := [], editInfo := none, editText := "", editModalVisible := false }

/-- The ids of the tasks in the store, in display order. -/
def idsOf (s : AppState) : List String := s.tasks.map (fun t => t.id)

/-- The id an operation can mint: `add` stamps `Date.now().toString()`. -/
def opIds : Op → List String
  | Op.add now _ => [Nat.repr now]
  | _ => []

/-- All ids the operations of a sequence can mint. -/
def addIds : List Op → List String
  | [] => []
  | op :: ops => opIds op ++ addIds ops

/-- The spec's §3 invariant: `completed == true ⟺ reminderHandle absent`. -/
def Inv (s : AppState) : Prop :=
  ∀ t ∈ s.tasks, t.completed = true ↔ t.notificationId = none


lemma toggleApply_id (i : String) (nid : Option String) (u : Task) :
    (toggleApply i nid u).id = u.id := by
  unfold toggleApply
  split <;> rfl

lemma editApply_id (i x : String) (u : Task) : (editApply i x u).id = u.id := by
  unfold editApply
  split <;> rfl

lemma editApply_frame (i x : String) (u : Task) :
    (editApply i x u).completed = u.completed ∧
    (editApply i x u).priority = u.priority ∧
    (editApply i x u).notificationId = u.notificationId := by
  unfold editApply
  split <;> exact ⟨rfl, rfl, rfl⟩

lemma find?_map_idpres (f : Task → Task) (hid : ∀ u, (f u).id = u.id)
    (i : String) (ts : List Task) :
    (ts.map f).find? (fun t => t.id == i) = (ts.find? (fun t => t.id == i)).map f := by
  induction ts with
  | nil => rfl
  | cons a ts ih =>
      simp only [List.map_cons, List.find?_cons, hid a]
      cases h : (a.id == i) with
      | true => simp
      | false => simpa using ih

lemma idsOf_map (f : Task → Task) (hid : ∀ u, (f u).id = u.id) (ts : List Task) :
    (ts.map f).map (fun t => t.id) = ts.map (fun t => t.id) := by
  simp only [List.map_map]
  exact List.map_congr_left (fun a _ => hid a)

lemma idsOf_state_map (s : AppState) (f : Task → Task) (hid : ∀ u, (f u).id = u.id) :
    idsOf { s with tasks := s.tasks.map f } = idsOf s :=
  idsOf_map f hid s.tasks

lemma step_ids (s : AppState) (op : Op) :
    (idsOf (step s op)).Sublist (idsOf s ++ opIds op) := by
  cases op with
  | setTask t => simp [step, idsOf, opIds]
  | openEdit i x => simp [step, idsOf, opIds, handleEditTask]
  | setEditText t => simp [step, idsOf, opIds]
  | cancelEdit => simp [step, idsOf, opIds, handleCancelEdit]
  | saveEdit =>
      cases he : s.editInfo with
      | none =>
          have hstep : step s Op.saveEdit = s := by simp [step, handleSaveEdit, he]
          rw [hstep]
          simp [opIds]
      | some ei =>
          by_cases h1 : jsTrim s.editText = ""
          · have hstep : step s Op.saveEdit = s := by simp [step, handleSaveEdit, he, h1]
            rw [hstep]
            simp [opIds]
          · have hstep : step s Op.saveEdit =
                { s with
                    tasks := s.tasks.map (editApply ei.1 s.editText)
                    editInfo := none
                    editText := ""
                    editModalVisible := false } := by
              simp [step, handleSaveEdit, he, h1]
            rw [hstep]
            have hids : idsOf { s with
                tasks := s.tasks.map (editApply ei.1 s.editText)
                editInfo := (none : Option (String × String))
                editText := ""
                editModalVisible := false } = idsOf s :=
              idsOf_map _ (editApply_id ei.1 s.editText) s.tasks
            rw [hids]
            simp [opIds]
  | add now sched =>
      by_cases h1 : jsTrim s.task = ""
      · have hstep : step s (Op.add now sched) = s := by simp [step, handleAddTask, h1]
        rw [hstep]
        simp [opIds, idsOf]
      · by_cases h2 : s.editModalVisible = false
        · cases sched with
          | error e =>
              have hstep : step s (Op.add now (Except.error e)) = s := by
                simp [step, handleAddTask, h1, h2]
              rw [hstep]
              simp [opIds, idsOf]
          | ok nid =>
              have hstep : step s (Op.add now (Except.ok nid)) =
                  { s with tasks := s.tasks ++ [addedTask s now nid], task := "" } := by
                simp [step, handleAddTask, h1, h2]
              rw [hstep]
              simp [opIds, idsOf, addedTask]
        · have hstep : step s (Op.add now sched) = s := by simp [step, handleAddTask, h1, h2]
          rw [hstep]
          simp [opIds, idsOf]
  | toggle i sched =>
      cases hf : s.tasks.find? (fun t => t.id == i) with
      | none =>
          have hstep : step s (Op.toggle i sched) =
              { s with tasks := s.tasks.map (toggleApply i none) } := by
            simp [step, handleToggleComplete, hf]
          rw [hstep, idsOf_state_map s _ (toggleApply_id i none)]
          simp [opIds]
      | some t =>
          cases hc : t.completed with
          | false =>
              have hstep : step s (Op.toggle i sched) =
                  { s with tasks := s.tasks.map (toggleApply i none) } := by
                simp [step, handleToggleComplete, hf, hc]
              rw [hstep, idsOf_state_map s _ (toggleApply_id i none)]
              simp [opIds]
          | true =>
              cases sched with
              | error e =>
                  have hstep : step s (Op.toggle i (Except.error e)) = s := by
                    simp [step, handleToggleComplete, hf, hc]
                  rw [hstep]
                  simp [opIds]
              | ok nid =>
                  have hstep : step s (Op.toggle i (Except.ok nid)) =
                      { s with tasks := s.tasks.map (toggleApply i (some nid)) } := by
                    simp [step, handleToggleComplete, hf, hc]
                  rw [hstep, idsOf_state_map s _ (toggleApply_id i (some nid))]
                  simp [opIds]
  | del i =>
      have hstep : step s (Op.del i) =
          { s with tasks := s.tasks.filter (fun t => !(t.id == i)) } := by
        simp [step, handleDeleteTask]
      rw [hstep]
      simp only [opIds, List.append_nil]
      exact List.Sublist.map _ (List.filter_sublist _)
  | setPriority i p =>
      have hstep : step s (Op.setPriority i p) =
          { s with tasks := s.tasks.map (fun t => if t.id == i then { t with priority := p } else t) } := by
        simp [step, handlePriorityChange]
      rw [hstep, idsOf_state_map s _ (fun u => by split <;> rfl)]
      simp [opIds]

lemma nodup_ids_unique (s : AppState) (hnd : (idsOf s).Nodup)
    (u t : Task) (hu : u ∈ s.tasks) (ht : t ∈ s.tasks) (hid : u.id = t.id) : u = t :=
  List.inj_on_of_nodup_map hnd hu ht hid

lemma inv_step (s : AppState) (op : Op) (hnd : (idsOf s).Nodup) (hinv : Inv s) :
    Inv (step s op) := by
  cases op with
  | setTask t => exact hinv
  | openEdit i x => exact hinv
  | setEditText t => exact hinv
  | cancelEdit => exact hinv
  | saveEdit =>
      cases he : s.editInfo with
      | none =>
          have hstep : step s Op.saveEdit = s := by simp [step, handleSaveEdit, he]
          rw [hstep]
          exact hinv
      | some ei =>
          by_cases h1 : jsTrim s.editText = ""
          · have hstep : step s Op.saveEdit = s := by simp [step, handleSaveEdit, he, h1]
            rw [hstep]
            exact hinv
          · have hstep : step s Op.saveEdit =
                { s with
                    tasks := s.tasks.map (editApply ei.1 s.editText)
                    editInfo := none
                    editText := ""
                    editModalVisible := false } := by
              simp [step, handleSaveEdit, he, h1]
            rw [hstep]
            intro t ht
            obtain ⟨u, hu, rfl⟩ := List.mem_map.1 ht
            have hfr := editApply_frame ei.1 s.editText u
            rw [hfr.1, hfr.2.2]
            exact hinv u hu
  | add now sched =>
      by_cases h1 : jsTrim s.task = ""
      · have hstep : step s (Op.add now sched) = s := by simp [step, handleAddTask, h1]
        rw [hstep]
        exact hinv
      · by_cases h2 : s.editModalVisible = false
        · cases sched with
          | error e =>
              have hstep : step s (Op.add now (Except.error e)) = s := by
                simp [step, handleAddTask, h1, h2]
              rw [hstep]
              exact hinv
          | ok nid =>
              have hstep : step s (Op.add now (Except.ok nid)) =
                  { s with tasks := s.tasks ++ [addedTask s now nid], task := "" } := by
                simp [step, handleAddTask, h1, h2]
              rw [hstep]
              intro t ht
              rcases List.mem_append.1 ht with hmem | hmem
              · exact hinv t hmem
              · have ht2 : t = addedTask s now nid := by simpa using hmem
                subst ht2
                simp [addedTask]
        · have hstep : step s (Op.add now sched) = s := by simp [step, handleAddTask, h1, h2]
          rw [hstep]
          exact hinv
  | toggle i sched =>
      cases hf : s.tasks.find? (fun t => t.id == i) with
      | none =>
          have hstep : step s (Op.toggle i sched) =
              { s with tasks := s.tasks.map (toggleApply i none) } := by
            simp [step, handleToggleComplete, hf]
          rw [hstep]
          intro x hx
          obtain ⟨u, hu, rfl⟩ := List.mem_map.1 hx
          have hne : ¬((u.id == i) = true) := by
            simpa using List.find?_eq_none.1 hf u hu
          simp only [toggleApply, if_neg hne]
          exact hinv u hu
      | some t =>
          have htmem := List.mem_of_find?_eq_some hf
          have htid : (t.id == i) = true := by simpa using List.find?_some hf
          cases hc : t.completed with
          | false =>
              have hstep : step s (Op.toggle i sched) =
                  { s with tasks := s.tasks.map (toggleApply i none) } := by
                simp [step, handleToggleComplete, hf, hc]
              rw [hstep]
              intro x hx
              obtain ⟨u, hu, rfl⟩ := List.mem_map.1 hx
              by_cases hui : (u.id == i) = true
              · have huq : u = t :=
                  nodup_ids_unique s hnd u t hu htmem
                    (by rw [beq_iff_eq.1 hui, beq_iff_eq.1 htid])
                subst huq
                simp [toggleApply, hui, hc]
              · simp only [toggleApply, if_neg hui]
                exact hinv u hu
          | true =>
              cases sched with
              | error e =>
                  have hstep : step s (Op.toggle i (Except.error e)) = s := by
                    simp [step, handleToggleComplete, hf, hc]
                  rw [hstep]
                  exact hinv
              | ok nid =>
                  have hstep : step s (Op.toggle i (Except.ok nid)) =
                      { s with tasks := s.tasks.map (toggleApply i (some nid)) } := by
                    simp [step, handleToggleComplete, hf, hc]
                  rw [hstep]
                  intro x hx
                  obtain ⟨u, hu, rfl⟩ := List.mem_map.1 hx
                  by_cases hui : (u.id == i) = true
                  · have huq : u = t :=
                      nodup_ids_unique s hnd u t hu htmem
                        (by rw [beq_iff_eq.1 hui, beq_iff_eq.1 htid])
                    subst huq
                    simp [toggleApply, hui, hc]
                  · simp only [toggleApply, if_neg hui]
                    exact hinv u hu
  | del i =>
      have hstep : step s (Op.del i) =
          { s with tasks := s.tasks.filter (fun t => !(t.id == i)) } := by
        simp [step, handleDeleteTask]
      rw [hstep]
      intro t ht
      exact hinv t (List.mem_of_mem_filter ht)
  | setPriority i p =>
      have hstep : step s (Op.setPriority i p) =
          { s with tasks := s.tasks.map (fun t => if t.id == i then { t with priority := p } else t) } := by
        simp [step, handlePriorityChange]
      rw [hstep]
      intro x hx
      obtain ⟨u, hu, rfl⟩ := List.mem_map.1 hx
      by_cases hui : (u.id == i) = true
      · simp only [if_pos hui]
        exact hinv u hu
      · simp only [if_neg hui]
        exact hinv u hu

lemma run_nodup_inv (ops : List Op) (s : AppState)
    (hnd : (idsOf s ++ addIds ops).Nodup) (hinv : Inv s) :
    (idsOf (run s ops)).Nodup ∧ Inv (run s ops) := by
  induction ops generalizing s with
  | nil =>
      refine ⟨?_, hinv⟩
      simpa [addIds] using hnd
  | cons op ops ih =>
      have hndL : (idsOf s).Nodup := hnd.of_append_left
      have hsub : (idsOf (step s op) ++ addIds ops).Sublist
          (idsOf s ++ addIds (op :: ops)) := by
        have h1 : (idsOf (step s op) ++ addIds ops).Sublist
            ((idsOf s ++ opIds op) ++ addIds ops) :=
          (step_ids s op).append_right _
        simpa [addIds, List.append_assoc] using h1
      have hnd2 : (idsOf (step s op) ++ addIds ops).Nodup := hnd.sublist hsub
      have hinv2 : Inv (step s op) := inv_step s op hndL hinv
      simpa [run] using ih (step s op) hnd2 hinv2

instance (s : AppState) : Decidable (Inv s) := by
  unfold Inv
  infer_instance

/-- Operation sequence exhibiting two adds at the same clock reading
(`Date.now()` has millisecond resolution) with a completion toggle in
between, so a completed and an incomplete task share the id `"5"`. -/
def invCexOps : List Op :=
  [Op.setTask "a", Op.add 5 (Except.ok "h1"), Op.toggle "5" (Except.ok "hx"),
   Op.setTask "b", Op.add 5 (Except.ok "h2"), Op.toggle "5" (Except.ok "h3")]

/-- C1 counterexample: after adding task "a" at clock 5, completing it,
adding task "b" at clock 5 again (same id "5"), and toggling id "5",
`handleToggleComplete`'s `tasks.map` flips both same-id tasks, leaving
task "b" completed with a present `notificationId` — the invariant
`completed ⟺ handle absent` fails after the operation settles. -/
theorem inv_iff_cex : ¬ Inv (run initialState invCexOps) := by decide

/-- C1 (amended): provided the `Date.now().toString()` values stamped by
the add operations are pairwise distinct (so no two tasks ever share an
id), every task satisfies `completed = true ⟺ notificationId absent`
after any sequence of operations settles, starting from the empty
store. -/
theorem inv_after_run_of_fresh_ids (ops : List Op) (h : (addIds ops).Nodup) :
    Inv (run initialState ops) :=
  (run_nodup_inv ops initialState (by simpa [initialState, idsOf] using h)
    (by intro t ht; simp [initialState] at ht)).2

def invWitnessOps : List Op :=
  [Op.setTask "a", Op.add 1 (Except.ok "ha"), Op.setTask "b", Op.add 2 (Except.ok "hb"),
   Op.toggle "1" (Except.ok "hc")]

theorem inv_after_run_of_fresh_ids_witness :
    (addIds invWitnessOps).Nodup ∧ Inv (run initialState invWitnessOps) :=
  ⟨by decide, inv_after_run_of_fresh_ids invWitnessOps (by decide)⟩

/-- A state whose add input is a non-blank string, about to add. -/
def addFailState : AppState :=
  { task := "buy milk", tasks := [], editInfo := none, editText := "",
    editModalVisible := false }

/-- C2 counterexample: `scheduleNotification` has no try/catch, so when
the gateway's schedule call rejects, the awaited rejection propagates
out of `handleAddTask`: the operation does not complete and no task is
appended, contradicting the claim that the add still completes with an
absent handle. -/
theorem add_failure_cex :
    (handleAddTask addFailState 5 (Except.error ())).1 = Except.error () := rfl

/-- C2 (amended): for non-blank input, if the schedule call fails the
add operation aborts: the rejection propagates to the caller of
`handleAddTask` (an unhandled promise rejection), the schedule request
was issued, and the store state is left unchanged — no task is
appended. -/
theorem add_failure_aborts (s : AppState) (now : Nat)
    (ht : ¬ jsTrim s.task = "") (hm : s.editModalVisible = false) :
    handleAddTask s now (Except.error ()) =
      (Except.error (), [Effect.scheduleRequest s.task]) ∧
    step s (Op.add now (Except.error ())) = s := by
  constructor
  · simp [handleAddTask, ht, hm]
  · simp [step, handleAddTask, ht, hm]

theorem add_failure_aborts_witness :
    handleAddTask addFailState 7 (Except.error ()) =
      (Except.error (), [Effect.scheduleRequest addFailState.task]) ∧
    step addFailState (Op.add 7 (Except.error ())) = addFailState :=
  add_failure_aborts addFailState 7 (by decide) (by decide)

/-- Two adds at the same clock reading: both tasks get id `"5"`. -/
def idsCexOps : List Op :=
  [Op.setTask "a", Op.add 5 (Except.ok "h1"), Op.setTask "b", Op.add 5 (Except.ok "h2")]

/-- C3 counterexample: `handleAddTask` stamps `Date.now().toString()`
as the id, so two adds within the same millisecond assign the same id
to two tasks in the sequence. -/
theorem ids_unique_cex : ¬ (idsOf (run initialState idsCexOps)).Nodup := by decide

/-- C3 (amended): provided the `Date.now().toString()` values stamped by
the add operations are pairwise distinct, no two tasks in the sequence
ever share an id, after any sequence of operations from the empty
store. -/
theorem ids_nodup_of_fresh_ids (ops : List Op) (h : (addIds ops).Nodup) :
    (idsOf (run initialState ops)).Nodup :=
  (run_nodup_inv ops initialState (by simpa [initialState, idsOf] using h)
    (by intro t ht; simp [initialState] at ht)).1

def idsWitnessOps : List Op :=
  [Op.setTask "a", Op.add 1 (Except.ok "ha"), Op.setTask "b", Op.add 2 (Except.ok "hb")]

theorem ids_nodup_of_fresh_ids_witness :
    (addIds idsWitnessOps).Nodup ∧ (idsOf (run initialState idsWitnessOps)).Nodup :=
  ⟨by decide, ids_nodup_of_fresh_ids idsWitnessOps (by decide)⟩

/-- C4: for a task present in the store (found by its id), toggling it
twice, with each toggle settling before the next, returns its
`completed` field to the original value; when it returns to incomplete
its `notificationId` is exactly the handle of the second, freshly
issued schedule request (`some h1`), not the original handle whenever
the gateway issues a distinct one.  Both starting polarities are
covered. -/
theorem toggle_twice_roundtrip (s : AppState) (i : String) (t : Task)
    (hf : s.tasks.find? (fun u => u.id == i) = some t) :
    (t.completed = false → ∀ (sc1 : Except Unit String) (h1 : String),
      (step (step s (Op.toggle i sc1)) (Op.toggle i (Except.ok h1))).tasks.find?
          (fun u => u.id == i) = some { t with notificationId := some h1 } ∧
      ({ t with notificationId := some h1 } : Task).completed = t.completed) ∧
    (t.completed = true → ∀ (h1 : String) (sc2 : Except Unit String),
      (step (step s (Op.toggle i (Except.ok h1))) (Op.toggle i sc2)).tasks.find?
          (fun u => u.id == i) = some { t with notificationId := none } ∧
      ({ t with notificationId := none } : Task).completed = t.completed) := by
  have htid : (t.id == i) = true := by simpa using List.find?_some hf
  constructor
  · intro hc sc1 h1
    have hs1 : step s (Op.toggle i sc1) =
        { s with tasks := s.tasks.map (toggleApply i none) } := by
      simp [step, handleToggleComplete, hf, hc]
    have hf1 : (s.tasks.map (toggleApply i none)).find? (fun u => u.id == i)
        = some { t with completed := true, notificationId := none } := by
      rw [find?_map_idpres _ (toggleApply_id i none) i s.tasks, hf]
      simp [toggleApply, htid, hc]
    have hs2 : step { s with tasks := s.tasks.map (toggleApply i none) }
        (Op.toggle i (Except.ok h1)) =
        { s with tasks := (s.tasks.map (toggleApply i none)).map (toggleApply i (some h1)) } := by
      simp [step, handleToggleComplete, hf1]
    rw [hs1, hs2]
    constructor
    · show ((s.tasks.map (toggleApply i none)).map (toggleApply i (some h1))).find?
          (fun u => u.id == i) = _
      rw [find?_map_idpres _ (toggleApply_id i (some h1)) i _, hf1]
      simp [toggleApply, htid, hc]
    · rfl
  · intro hc h1 sc2
    have hs1 : step s (Op.toggle i (Except.ok h1)) =
        { s with tasks := s.tasks.map (toggleApply i (some h1)) } := by
      simp [step, handleToggleComplete, hf, hc]
    have hf1 : (s.tasks.map (toggleApply i (some h1))).find? (fun u => u.id == i)
        = some { t with completed := false, notificationId := some h1 } := by
      rw [find?_map_idpres _ (toggleApply_id i (some h1)) i s.tasks, hf]
      simp [toggleApply, htid, hc]
    have hs2 : step { s with tasks := s.tasks.map (toggleApply i (some h1)) }
        (Op.toggle i sc2) =
        { s with tasks := (s.tasks.map (toggleApply i (some h1))).map (toggleApply i none) } := by
      simp [step, handleToggleComplete, hf1]
    rw [hs1, hs2]
    constructor
    · show ((s.tasks.map (toggleApply i (some h1))).map (toggleApply i none)).find?
          (fun u => u.id == i) = _
      rw [find?_map_idpres _ (toggleApply_id i none) i _, hf1]
      simp [toggleApply, htid, hc]
    · rfl

def wTask : Task :=
  { id := "1", text := "a", completed := false, priority := Priority.medium,
    notificationId := some "h0" }

def wToggleState : AppState :=
  { task := "", tasks := [wTask], editInfo := none, editText := "",
    editModalVisible := false }

theorem toggle_twice_roundtrip_witness :
    (step (step wToggleState (Op.toggle "1" (Except.error ())))
        (Op.toggle "1" (Except.ok "h1"))).tasks.find? (fun u => u.id == "1")
      = some { wTask with notificationId := some "h1" } ∧
    ({ wTask with notificationId := some "h1" } : Task).completed = wTask.completed :=
  (toggle_twice_roundtrip wToggleState "1" wTask (by decide)).1 (by decide)
    (Except.error ()) "h1"

/-- C5: with the edit modal open on task `i`, saving with
whitespace-only text leaves the entire component state unchanged;
saving with non-blank text replaces exactly the `text` field of the
tasks with id `i` — `id`, `completed`, `priority` and `notificationId`
are preserved pointwise and non-matching tasks are untouched. -/
theorem saveEdit_frame (s : AppState) (i et : String)
    (he : s.editInfo = some (i, et)) :
    (jsTrim s.editText = "" → handleSaveEdit s = s) ∧
    (¬ jsTrim s.editText = "" →
      (handleSaveEdit s).tasks = s.tasks.map (editApply i s.editText) ∧
      ∀ u : Task,
        (editApply i s.editText u).id = u.id ∧
        (editApply i s.editText u).completed = u.completed ∧
        (editApply i s.editText u).priority = u.priority ∧
        (editApply i s.editText u).notificationId = u.notificationId ∧
        (¬ u.id = i → editApply i s.editText u = u)) := by
  constructor
  · intro h1
    simp [handleSaveEdit, he, h1]
  · intro h1
    refine ⟨by simp [handleSaveEdit, he, h1], ?_⟩
    intro u
    refine ⟨editApply_id i s.editText u, (editApply_frame i s.editText u).1,
      (editApply_frame i s.editText u).2.1, (editApply_frame i s.editText u).2.2, ?_⟩
    intro hne
    simp [editApply, hne]

def wEditState : AppState :=
  { task := ""
    tasks := [{ id := "1", text := "old", completed := false,
                priority := Priority.medium, notificationId := some "h" }]
    editInfo := some ("1", "old")
    editText := " new "
    editModalVisible := true }

theorem saveEdit_frame_witness :
    (handleSaveEdit wEditState).tasks = wEditState.tasks.map (editApply "1" wEditState.editText) :=
  ((saveEdit_frame wEditState "1" "old" (by decide)).2 (by decide)).1

/-- C6: for non-blank input with the edit modal closed and a fulfilled
schedule request, `handleAddTask` issues exactly one schedule request
and appends exactly one task at the end — with the typed text,
`completed = false`, `priority = medium` and the scheduled handle —
leaving the existing tasks and their order unchanged; moreover no
operation ever reorders the surviving ids (each step's id sequence is
a sublist of the previous ids plus the possibly minted one), so tasks
are never re-sorted by priority or completion. -/
theorem addTask_appends (s : AppState) (now : Nat) (nid : String)
    (ht : ¬ jsTrim s.task = "") (hm : s.editModalVisible = false) :
    handleAddTask s now (Except.ok nid) =
      (Except.ok { s with tasks := s.tasks ++ [addedTask s now nid], task := "" },
        [Effect.scheduleRequest s.task]) ∧
    (addedTask s now nid).text = s.task ∧
    (addedTask s now nid).completed = false ∧
    (addedTask s now nid).priority = Priority.medium ∧
    ∀ (s2 : AppState) (op : Op), (idsOf (step s2 op)).Sublist (idsOf s2 ++ opIds op) :=
  ⟨by simp [handleAddTask, ht, hm], rfl, rfl, rfl, step_ids⟩

def wAddState : AppState :=
  { task := " milk ", tasks := [], editInfo := none, editText := "",
    editModalVisible := false }

theorem addTask_appends_witness :
    handleAddTask wAddState 9 (Except.ok "h9") =
      (Except.ok { wAddState with
                    tasks := wAddState.tasks ++ [addedTask wAddState 9 "h9"]
                    task := "" },
        [Effect.scheduleRequest wAddState.task]) :=
  (addTask_appends wAddState 9 "h9" (by decide) (by decide)).1

/-- C7: for input whose trim is empty (empty or whitespace-only),
`handleAddTask` is a silent no-op: the state is returned unchanged, no
gateway request is issued, and no error is raised. -/
theorem addTask_blank_noop (s : AppState) (now : Nat) (sched : Except Unit String)
    (h : jsTrim s.task = "") :
    handleAddTask s now sched = (Except.ok s, []) := by
  simp [handleAddTask, h]

def wBlankState : AppState :=
  { task := "   ", tasks := [], editInfo := none, editText := "",
    editModalVisible := false }

theorem addTask_blank_noop_witness :
    handleAddTask wBlankState 7 (Except.ok "h") = (Except.ok wBlankState, []) :=
  addTask_blank_noop wBlankState 7 (Except.ok "h") (by decide)

/-- C8: on process start the store is the empty sequence when the
persistence gateway has no stored value, and also when the stored
value is unparseable (`JSON.parse` throws, the `catch` swallows it);
`loadTasks` is total, so no failure reaches the caller. -/
theorem loadTasks_soft_empty (parse : String → Except Unit (List Task)) :
    loadTasks none parse = [] ∧
    ∀ str : String, parse str = Except.error () → loadTasks (some str) parse = [] := by
  refine ⟨rfl, ?_⟩
  intro str hp
  by_cases hs : str = ""
  · simp [loadTasks, hs]
  · simp [loadTasks, hs, hp]

def badParse : String → Except Unit (List Task) := fun _ => Except.error ()

theorem loadTasks_soft_empty_witness :
    loadTasks none badParse = [] ∧ loadTasks (some "garbage") badParse = [] :=
  ⟨(loadTasks_soft_empty badParse).1, (loadTasks_soft_empty badParse).2 "garbage" rfl⟩

/-- C9: while the edit modal is visible, `handleAddTask` is a no-op
even for non-blank input — the schedule call sits inside the
`!editModalVisible` guard, so no task is appended and no reminder is
scheduled. -/
theorem addTask_editing_noop (s : AppState) (now : Nat) (sched : Except Unit String)
    (h : s.editModalVisible = true) :
    handleAddTask s now sched = (Except.ok s, []) := by
  by_cases h1 : jsTrim s.task = ""
  · simp [handleAddTask, h1]
  · simp [handleAddTask, h1, h]

def wModalState : AppState :=
  { task := "buy", tasks := [], editInfo := some ("1", "x"), editText := "x",
    editModalVisible := true }

theorem addTask_editing_noop_witness :
    handleAddTask wModalState 7 (Except.ok "h") = (Except.ok wModalState, []) :=
  addTask_editing_noop wModalState 7 (Except.ok "h") (by decide)

/-- C10: `handleAddTask` and `handleSaveEdit` store the raw, un-trimmed
input: the appended task's `text` is exactly the typed string
(whitespace included) and the saved edit replaces `text` with exactly
the typed replacement — `trim` is applied only in the emptiness
guards. -/
theorem raw_text_stored (s : AppState) (now : Nat) (nid : String)
    (ht : ¬ jsTrim s.task = "") (hm : s.editModalVisible = false) :
    ((handleAddTask s now (Except.ok nid)).1 =
        Except.ok { s with tasks := s.tasks ++ [addedTask s now nid], task := "" } ∧
      (addedTask s now nid).text = s.task) ∧
    (∀ (s2 : AppState) (i et : String), s2.editInfo = some (i, et) →
        ¬ jsTrim s2.editText = "" →
        (handleSaveEdit s2).tasks = s2.tasks.map (editApply i s2.editText)) ∧
    (∀ (i x : String) (u : Task), u.id = i → (editApply i x u).text = x) := by
  refine ⟨⟨by simp [handleAddTask, ht, hm], rfl⟩, ?_, ?_⟩
  · intro s2 i et he h1
    simp [handleSaveEdit, he, h1]
  · intro i x u hui
    simp [editApply, hui]

def wRawState : AppState :=
  { task := "  spaced  ", tasks := [], editInfo := none, editText := "",
    editModalVisible := false }

theorem raw_text_stored_witness :
    (handleAddTask wRawState 3 (Except.ok "h3")).1 =
        Except.ok { wRawState with
                     tasks := wRawState.tasks ++ [addedTask wRawState 3 "h3"]
                     task := "" } ∧
    (addedTask wRawState 3 "h3").text = wRawState.task :=
  (raw_text_stored wRawState 3 "h3" (by decide) (by decide)).1

end TaskApp
